import Mathlib

/-!
Shallow embedding of `bot4.py`, a contact-book program: validated fields
(`Name`, `Phone`, `Birthday`), `Record`, `AddressBook` with JSON persistence,
and the weekly-birthday query.  Python values flowing through the dynamic
parts (JSON `load`, field validation) are modelled by the `Json` type;
Python exceptions by `PyError`.  `str.isdigit` is modelled with its Unicode
semantics, via the code-point table of CPython's Unicode database;
`str.isalpha` and `str.title` are modelled with their ASCII semantics.
-/

namespace Bot4

/-- Values produced by `json.load` / consumed by `json.dump` for this
program, and the dynamic values handed to `Record` construction.  An
`obj` list holds the items of a parsed JSON object in order (parsed
dicts have no duplicate keys). -/
inductive Json where
  | null : Json
  | str : String → Json
  | arr : List Json → Json
  | obj : List (String × Json) → Json

/-- Python exceptions raised by the modelled code paths. -/
inductive PyError where
  | valueError (msg : String)
  | keyError (key : String)
  | attributeError (attr : String)
  | typeError (msg : String)
deriving Repr, DecidableEq

/-- The inclusive code-point ranges of the characters Python
`str.isdigit` accepts (Unicode `Numeric_Type` `Decimal` or `Digit`),
enumerated from CPython's Unicode database (UnicodeData 14.0.0): ASCII
digits plus superscripts, circled digits and every script's decimal
digits. -/
def pyDigitRanges : List (Nat × Nat) :=
  [(48, 57), (178, 179), (185, 185), (1632, 1641), (1776, 1785),
   (1984, 1993), (2406, 2415), (2534, 2543), (2662, 2671), (2790, 2799),
   (2918, 2927), (3046, 3055), (3174, 3183), (3302, 3311), (3430, 3439),
   (3558, 3567), (3664, 3673), (3792, 3801), (3872, 3881), (4160, 4169),
   (4240, 4249), (4969, 4977), (6112, 6121), (6160, 6169), (6470, 6479),
   (6608, 6618), (6784, 6793), (6800, 6809), (6992, 7001), (7088, 7097),
   (7232, 7241), (7248, 7257), (8304, 8304), (8308, 8313), (8320, 8329),
   (9312, 9320), (9332, 9340), (9352, 9360), (9450, 9450), (9461, 9469),
   (9471, 9471), (10102, 10110), (10112, 10120), (10122, 10130),
   (42528, 42537), (43216, 43225), (43264, 43273), (43472, 43481),
   (43504, 43513), (43600, 43609), (44016, 44025), (65296, 65305),
   (66720, 66729), (68160, 68163), (68912, 68921), (69216, 69224),
   (69714, 69722), (69734, 69743), (69872, 69881), (69942, 69951),
   (70096, 70105), (70384, 70393), (70736, 70745), (70864, 70873),
   (71248, 71257), (71360, 71369), (71472, 71481), (71904, 71913),
   (72016, 72025), (72784, 72793), (73040, 73049), (73120, 73129),
   (92768, 92777), (92864, 92873), (93008, 93017), (120782, 120831),
   (123200, 123209), (123632, 123641), (125264, 125273), (127232, 127242),
   (130032, 130041)]

/-- Python `chr(c).isdigit()`, true exactly on the code points of
`pyDigitRanges`. -/
def pyCharIsDigit (c : Char) : Bool :=
  pyDigitRanges.any fun r => r.1 ≤ c.toNat && c.toNat ≤ r.2

/-- Python `str.isdigit`: nonempty and every character a Python digit
(which includes non-ASCII Unicode digits such as superscripts). -/
def pyStrIsDigit (s : String) : Bool :=
  !s.data.isEmpty && s.data.all pyCharIsDigit

/-- Python `str.isalpha`, ASCII semantics: nonempty and every character a
letter. -/
def pyStrIsAlpha (s : String) : Bool :=
  !s.data.isEmpty && s.data.all Char.isAlpha

def nameMsg : String := "Name should contain only letters."

def phoneMsg : String := "Phone number must be 10 digits and contain only digits."

def birthdayMsg : String := "Invalid birthday format. Please use DD/MM/YYYY."

/-- `Name(value).validate()`: raises `ValueError` unless `value.isalpha()`;
on a non-string value, `value.isalpha` itself raises `AttributeError`.
Returns the validated raw string. -/
def nameValidate : Json → Except PyError String
  | .str s => if pyStrIsAlpha s then .ok s else .error (.valueError nameMsg)
  | _ => .error (.attributeError "isalpha")

/-- Python `len()` on the value kinds that can reach `Phone.validate`:
strings, lists and dicts have a length, `None` raises `TypeError`. -/
def pyLen : Json → Except PyError Nat
  | .str s => .ok s.length
  | .arr l => .ok l.length
  | .obj kvs => .ok kvs.length
  | .null => .error (.typeError "object of type NoneType has no len()")

/-- The condition under which `Phone.validate` accepts a string:
`len(value) == 10 and value.isdigit()`. -/
def phoneStrValid (s : String) : Bool :=
  s.length == 10 && pyStrIsDigit s

/-- `Phone(value).validate()`: `if len(value) != 10 or not value.isdigit()`
raises `ValueError` (the length test short-circuits, so `.isdigit` on a
non-string only raises `AttributeError` when the length happens to be 10).
Returns the validated raw string. -/
def phoneValidate : Json → Except PyError String
  | .str s => if phoneStrValid s then .ok s
      else .error (.valueError phoneMsg)
  | j =>
      match pyLen j with
      | .ok n => if n == 10 then .error (.attributeError "isdigit")
          else .error (.valueError phoneMsg)
      | .error e => .error e

/-- Numeric value of an ASCII digit character. -/
def digitVal (c : Char) : Nat := c.toNat - 48

/-- CPython `_strptime` day field for `%d`, the regex
alternation `3[01]|[12]\d|0[1-9]|[1-9]| [1-9]` tried in order; returns the
day value and the unconsumed characters.  (For the `%d/%m/%Y` format the
alternative chosen is determined by whether the second character is a
digit, since every successful overall match needs a slash next, so no
regex backtracking across alternatives can change the outcome.) -/
def parseDay : List Char → Option (Nat × List Char)
  | c1 :: c2 :: rest =>
      if c1 = '3' && (c2 = '0' || c2 = '1') then some (30 + digitVal c2, rest)
      else if (c1 = '1' || c1 = '2') && c2.isDigit then
        some (digitVal c1 * 10 + digitVal c2, rest)
      else if c1 = '0' && c2.isDigit && c2 ≠ '0' then some (digitVal c2, rest)
      else if c1.isDigit && c1 ≠ '0' then some (digitVal c1, c2 :: rest)
      else if c1 = ' ' && c2.isDigit && c2 ≠ '0' then some (digitVal c2, rest)
      else none
  | [c1] => if c1.isDigit && c1 ≠ '0' then some (digitVal c1, []) else none
  | [] => none

/-- CPython `_strptime` month field for `%m`, the regex alternation
`1[0-2]|0[1-9]|[1-9]` tried in order. -/
def parseMonth : List Char → Option (Nat × List Char)
  | c1 :: c2 :: rest =>
      if c1 = '1' && (c2 = '0' || c2 = '1' || c2 = '2') then
        some (10 + digitVal c2, rest)
      else if c1 = '0' && c2.isDigit && c2 ≠ '0' then some (digitVal c2, rest)
      else if c1.isDigit && c1 ≠ '0' then some (digitVal c1, c2 :: rest)
      else none
  | [c1] => if c1.isDigit && c1 ≠ '0' then some (digitVal c1, []) else none
  | [] => none

/-- CPython `_strptime` year field for `%Y`: exactly four digits
(`\d\d\d\d`). -/
def parseYear : List Char → Option (Nat × List Char)
  | c1 :: c2 :: c3 :: c4 :: rest =>
      if c1.isDigit && c2.isDigit && c3.isDigit && c4.isDigit then
        some (((digitVal c1 * 10 + digitVal c2) * 10 + digitVal c3) * 10
          + digitVal c4, rest)
      else none
  | _ => none

/-- The regex match of `datetime.strptime(s, "%d/%m/%Y")`: day, slash,
month, slash, four-digit year, and nothing left over.  Returns
`(day, month, year)`. -/
def strptimeDMY (s : String) : Option (Nat × Nat × Nat) :=
  match parseDay s.data with
  | some (d, r1) =>
      match r1 with
      | '/' :: r2 =>
          match parseMonth r2 with
          | some (m, r3) =>
              match r3 with
              | '/' :: r4 =>
                  match parseYear r4 with
                  | some (y, r5) =>
                      match r5 with
                      | [] => some (d, m, y)
                      | _ => none
                  | none => none
              | _ => none
          | none => none
      | _ => none
  | none => none

def isLeapYear (y : Nat) : Bool :=
  y % 4 == 0 && (y % 100 != 0 || y % 400 == 0)

def daysInMonth (y m : Nat) : Nat :=
  if m = 2 then (if isLeapYear y then 29 else 28)
  else if m = 4 ∨ m = 6 ∨ m = 9 ∨ m = 11 then 30
  else 31

/-- The range checks `datetime.date` applies after the regex match:
`MINYEAR ≤ year ≤ MAXYEAR`, a real month, and a day within the month. -/
def dateOk (d m y : Nat) : Bool :=
  1 ≤ y && y ≤ 9999 && 1 ≤ m && m ≤ 12 && 1 ≤ d && d ≤ daysInMonth y m

/-- Full `datetime.strptime(s, "%d/%m/%Y")`: regex match followed by the
calendar range checks; `none` models the `ValueError` raised otherwise. -/
def strptimeDate (s : String) : Option (Nat × Nat × Nat) :=
  match strptimeDMY s with
  | some (d, m, y) => if dateOk d m y then some (d, m, y) else none
  | none => none

/-- `Birthday(value).validate()`: runs `strptime` and converts its
`ValueError` into the fixed message; a non-string value makes `strptime`
raise `TypeError`, which the handler does not catch.  Returns the
validated raw string. -/
def birthdayValidate : Json → Except PyError String
  | .str s =>
      match strptimeDate s with
      | some _ => .ok s
      | none => .error (.valueError birthdayMsg)
  | _ => .error (.typeError "strptime() argument 1 must be str")

/-- A contact record after successful construction: validation succeeds
only on strings, so the committed fields are strings. -/
structure Record where
  name : String
  phones : List String
  birthday : Option String
deriving Repr, DecidableEq

/-- Python truthiness of the values tested by `if phones:` and
`if birthday:`. -/
def jsonTruthy : Json → Bool
  | .null => false
  | .str s => !s.data.isEmpty
  | .arr l => !l.isEmpty
  | .obj kvs => !kvs.isEmpty

/-- Python iteration `for x in v`: lists yield their elements, strings
their one-character substrings, dicts their keys; `None` raises
`TypeError`. -/
def jsonIter : Json → Except PyError (List Json)
  | .arr l => .ok l
  | .str s => .ok (s.data.map fun c => .str (String.mk [c]))
  | .obj kvs => .ok (kvs.map fun kv => .str kv.1)
  | .null => .error (.typeError "NoneType object is not iterable")

/-- `Record.add_phone`: validate then append.  The first component is the
record after the call (unchanged on failure, since validation precedes
the append); the second is the raised exception, if any. -/
def Record.add_phone (r : Record) (phone : Json) : Record × Option PyError :=
  match phoneValidate phone with
  | .ok s => ({ r with phones := r.phones ++ [s] }, none)
  | .error e => (r, some e)

/-- `Record.find_phone`: first stored phone whose raw value equals the
argument, or none. -/
def Record.find_phone (r : Record) (phone : String) : Option String :=
  r.phones.find? (fun p => p == phone)

/-- `Record.remove_phone`: drop the first matching phone (`list.remove`
on the object returned by `find_phone`); no-op when absent. -/
def Record.remove_phone (r : Record) (phone : String) : Record :=
  match r.find_phone phone with
  | some _ => { r with phones := r.phones.erase phone }
  | none => r

/-- `Record.edit_phone`: `remove_phone(old)` then `add_phone(new)`; the
removal is committed even when the add fails. -/
def Record.edit_phone (r : Record) (old : String) (nw : Json) :
    Record × Option PyError :=
  (r.remove_phone old).add_phone nw

/-- `Record.add_birthday`: validate then overwrite; unchanged on
failure. -/
def Record.add_birthday (r : Record) (birthday : Json) :
    Record × Option PyError :=
  match birthdayValidate birthday with
  | .ok s => ({ r with birthday := some s }, none)
  | .error e => (r, some e)

/-- `Record.show_birthday`: the raw birthday string, or the sentinel. -/
def Record.show_birthday (r : Record) : String :=
  match r.birthday with
  | some b => b
  | none => "No birthday set"

/-- Python `str.join` on a separator. -/
def pyJoin (sep : String) : List String → String
  | [] => ""
  | [x] => x
  | x :: xs => x ++ sep ++ pyJoin sep xs

/-- `Record.__str__`. -/
def Record.render (r : Record) : String :=
  "Contact name: " ++ r.name ++ ", phones: " ++ pyJoin ", " r.phones
    ++ ", Birthday: " ++ r.show_birthday

/-- The `for phone in phones: self.add_phone(phone)` loop of
`Record.__init__`: stops at the first raised exception, keeping the
phones committed before it. -/
def addPhonesLoop (r : Record) : List Json → Record × Option PyError
  | [] => (r, none)
  | p :: ps =>
      match r.add_phone p with
      | (r1, none) => addPhonesLoop r1 ps
      | (r1, some e) => (r1, some e)

/-- `Record.__init__(name, phones, birthday)`: validate the name, then
add each phone in order (only when `phones` is truthy), then validate and
set the birthday (only when `birthday` is truthy).  Any raised exception
aborts construction, so no record is produced. -/
def Record.init (name phones birthday : Json) : Except PyError Record :=
  match nameValidate name with
  | .error e => .error e
  | .ok n =>
      match (if jsonTruthy phones then
          match jsonIter phones with
          | .ok items =>
              addPhonesLoop { name := n, phones := [], birthday := none } items
          | .error e => ({ name := n, phones := [], birthday := none }, some e)
        else ({ name := n, phones := [], birthday := none }, none)) with
      | (_, some e) => .error e
      | (r1, none) =>
          match (if jsonTruthy birthday then r1.add_birthday birthday
            else (r1, none)) with
          | (_, some e) => .error e
          | (r2, none) => .ok r2

/-- The address book's backing dict, as its items in insertion order
(Python dicts: unique keys, updates keep position, fresh keys append). -/
structure AddressBook where
  data : List (String × Record)
deriving Repr, DecidableEq

/-- `d[k] = v` on a Python dict rendered as an item list. -/
def dictSet (l : List (String × Record)) (k : String) (v : Record) :
    List (String × Record) :=
  if l.any (fun kv => kv.1 == k) then
    l.map (fun kv => if kv.1 == k then (k, v) else kv)
  else l ++ [(k, v)]

/-- `d.get(k)` on a Python dict rendered as an item list. -/
def dictGet (l : List (String × Record)) (k : String) : Option Record :=
  (l.find? (fun kv => kv.1 == k)).map Prod.snd

/-- `AddressBook.add_record`: `data[record.name.value] = record`. -/
def AddressBook.add_record (b : AddressBook) (r : Record) : AddressBook :=
  ⟨dictSet b.data r.name r⟩

/-- Python `str.title`, ASCII semantics: a letter not preceded by a
letter is uppercased, every other letter is lowercased. -/
def pyTitleAux : List Char → Bool → List Char
  | [], _ => []
  | c :: cs, prevAlpha =>
      (if prevAlpha then c.toLower else c.toUpper) :: pyTitleAux cs c.isAlpha

def pyTitle (s : String) : String := String.mk (pyTitleAux s.data false)

/-- `AddressBook.find`: look up under the title-cased input name. -/
def AddressBook.find (b : AddressBook) (name : String) : Option Record :=
  dictGet b.data (pyTitle name)

/-- `AddressBook.delete`: `del data[name]`; raises `KeyError` when the
key is absent (before any mutation), otherwise removes that key's entry.
Post-state plus raised exception, as for the record mutators. -/
def AddressBook.delete (b : AddressBook) (name : String) :
    AddressBook × Option PyError :=
  if b.data.any (fun kv => kv.1 == name) then
    (⟨b.data.filter (fun kv => kv.1 != name)⟩, none)
  else (b, some (.keyError name))

/-- The JSON value `json.dump(..., default=lambda o: o.__dict__)` emits
for one `Record`: each `Field` attribute becomes `{"value": ...}` via its
`__dict__`, `None` becomes `null`.  Attribute order follows assignment
order in `__init__`. -/
def Record.toJson (r : Record) : Json :=
  .obj [("name", .obj [("value", .str r.name)]),
    ("phones", .arr (r.phones.map fun p => .obj [("value", .str p)])),
    ("birthday", match r.birthday with
      | none => .null
      | some b => .obj [("value", .str b)])]

/-- `AddressBook.save`: the JSON value written to the storage file. -/
def AddressBook.save (b : AddressBook) : Json :=
  .obj (b.data.map fun kv => (kv.1, kv.2.toJson))

/-- The state of the storage file as seen through `open` + `json.load`:
missing file (`FileNotFoundError`), unparseable contents
(`json.JSONDecodeError`), or the parsed JSON value.  Writing then reading
the file reproduces the dumped JSON value. -/
inductive Storage where
  | absent : Storage
  | malformed : Storage
  | contents : Json → Storage

/-- `v[k]` on a dynamic value: dict lookup raising `KeyError` when
missing; subscripting a non-dict by a string raises `TypeError`. -/
def jsonGet (v : Json) (k : String) : Except PyError Json :=
  match v with
  | .obj kvs =>
      match kvs.find? (fun kv => kv.1 == k) with
      | some kv => .ok kv.2
      | none => .error (.keyError k)
  | _ => .error (.typeError "value is not subscriptable by str")

/-- One entry of the `load` dict comprehension:
`Record(v["name"], v["phones"], v["birthday"])`. -/
def loadEntry (v : Json) : Except PyError Record :=
  match jsonGet v "name" with
  | .error e => .error e
  | .ok nm =>
      match jsonGet v "phones" with
      | .error e => .error e
      | .ok ps =>
          match jsonGet v "birthday" with
          | .error e => .error e
          | .ok bd => Record.init nm ps bd

/-- The `load` dict comprehension over the parsed object's items, left to
right, building the book's dict; the first raised exception aborts it. -/
def loadItems (acc : List (String × Record)) :
    List (String × Json) → Except PyError (List (String × Record))
  | [] => .ok acc
  | (k, v) :: rest =>
      match loadEntry v with
      | .error e => .error e
      | .ok r => loadItems (dictSet acc k r) rest

/-- `AddressBook.load`: a missing or unparseable file yields the empty
dict; otherwise the comprehension runs on the parsed value's `.items()`
(`AttributeError` when the parsed value is not a dict), and any exception
it raises propagates. -/
def AddressBook.load (st : Storage) : Except PyError AddressBook :=
  match st with
  | .absent => .ok ⟨[]⟩
  | .malformed => .ok ⟨[]⟩
  | .contents j =>
      match j with
      | .obj kvs =>
          match loadItems [] kvs with
          | .ok l => .ok ⟨l⟩
          | .error e => .error e
      | _ => .error (.attributeError "items")

/-- Midnight of a calendar date as a timestamp in seconds; the ordinal
uses the proleptic Gregorian day count from 0001-01-01, matching
`datetime` comparison and `timedelta(days=7)` arithmetic. -/
def daysBeforeMonth (y m : Nat) : Nat :=
  (List.range (m - 1)).foldl (fun a i => a + daysInMonth y (i + 1)) 0

def toOrdinal (y m d : Nat) : Nat :=
  (y - 1) * 365 + (y - 1) / 4 - (y - 1) / 100 + (y - 1) / 400
    + daysBeforeMonth y m + d

def midnightTs (d m y : Nat) : Int := (toOrdinal y m d : Int) * 86400

/-- The birthday filter of `get_birthdays_per_week`, over the dict's
records in order.  `today` is the timestamp of `datetime.today()`;
`strptime` failure on a stored birthday raises (uncaught). -/
def gbpwAux (today : Int) :
    List (String × Record) → Except PyError (List (String × String))
  | [] => .ok []
  | (_, r) :: rest =>
      match r.birthday with
      | none => gbpwAux today rest
      | some b =>
          match strptimeDate b with
          | none => .error (.valueError ("time data " ++ b
              ++ " does not match format"))
          | some (d, m, y) =>
              match gbpwAux today rest with
              | .error e => .error e
              | .ok l =>
                  if today ≤ midnightTs d m y
                      && midnightTs d m y ≤ today + 7 * 86400 then
                    .ok ((r.name, b) :: l)
                  else .ok l

/-- `AddressBook.get_birthdays_per_week`, with `datetime.today()` passed
in as a timestamp. -/
def AddressBook.get_birthdays_per_week (b : AddressBook) (today : Int) :
    Except PyError (List (String × String)) :=
  gbpwAux today b.data

/-- The record of the spec's round-trip test case. -/
def johnRecord : Record :=
  { name := "John", phones := ["1234567890"], birthday := some "01/01/1990" }

/-- A book holding only `johnRecord`, as `add_record` would store it. -/
def johnBook : AddressBook := ⟨[("John", johnRecord)]⟩

/-- The spec's words for claim C7: a string in "strict DD/MM/YYYY
4-digit-year form", read as the shape two digits, slash, two digits,
slash, four digits. -/
def strictDDMMYYYY (s : String) : Bool :=
  match s.data with
  | [d1, d2, s1, m1, m2, s2, y1, y2, y3, y4] =>
      d1.isDigit && d2.isDigit && s1 == '/' && m1.isDigit && m2.isDigit
        && s2 == '/' && y1.isDigit && y2.isDigit && y3.isDigit && y4.isDigit
  | _ => false

/-- A decimal digit character, stated directly on the code point. -/
def specDecimalDigit (c : Char) : Prop := 48 ≤ c.toNat ∧ c.toNat ≤ 57

instance specDecimalDigitDec : DecidablePred specDecimalDigit := fun c => by
  unfold specDecimalDigit; infer_instance

/-- Ten SUPERSCRIPT TWO characters (U+00B2): length 10 and all Python
digits, but none of them a decimal digit. -/
def superTwoPhone : String := "²²²²²²²²²²"

/-- A real proleptic-Gregorian calendar date within `datetime`'s year
range, stated by month groups independently of the code's month-length
table. -/
def specRealDate (d m y : Nat) : Prop :=
  1 ≤ y ∧ y ≤ 9999 ∧ 1 ≤ d ∧
    ((m ∈ ([1, 3, 5, 7, 8, 10, 12] : List Nat) ∧ d ≤ 31)
      ∨ (m ∈ ([4, 6, 9, 11] : List Nat) ∧ d ≤ 30)
      ∨ (m = 2 ∧
          if y % 4 = 0 ∧ (y % 100 ≠ 0 ∨ y % 400 = 0) then d ≤ 29 else d ≤ 28))

instance specRealDateDec (d m y : Nat) : Decidable (specRealDate d m y) := by
  unfold specRealDate; infer_instance

/-- The record invariant of the spec: valid name, every phone valid,
birthday (when present) a valid date. -/
def recInv (r : Record) : Prop :=
  pyStrIsAlpha r.name = true
    ∧ (∀ p ∈ r.phones, phoneStrValid p = true)
    ∧ (∀ bd, r.birthday = some bd → (strptimeDate bd).isSome = true)

/-- Decidable per-record form of "the stored birthday, if any, parses". -/
def recBirthdayOk (r : Record) : Bool :=
  match r.birthday with
  | none => true
  | some s => (strptimeDate s).isSome

/-- Membership condition of the weekly-birthday query: the stored date,
parsed literally with its stored year, lies (as its midnight instant)
within `[today, today + 7 days]` inclusive. -/
def inWindow (today : Int) (bd : String) : Prop :=
  ∃ d m y, strptimeDate bd = some (d, m, y)
    ∧ today ≤ midnightTs d m y ∧ midnightTs d m y ≤ today + 7 * 86400

/-- A storage entry of the shape `save` is meant to be read back from:
`name` a string, `phones` a list of strings, `birthday` a string or
`null`. -/
def wellFormedEntry (v : Json) : Prop :=
  ∃ nm ps bd, jsonGet v "name" = .ok (.str nm)
    ∧ jsonGet v "phones" = .ok (.arr ps)
    ∧ (∀ p ∈ ps, ∃ s, p = .str s)
    ∧ jsonGet v "birthday" = .ok bd
    ∧ (bd = .null ∨ ∃ s, bd = .str s)

/-- A well-formed storage entry whose name fails validation. -/
def badEntry : Json :=
  .obj [("name", .str "Bad123"), ("phones", .arr []), ("birthday", .null)]

/-- Records distinguishing the stored key from its title-cased lookup:
one stored under "John", one under "JOHN". -/
def titleJohnRec : Record :=
  { name := "John", phones := ["1234567890"], birthday := none }

def upperJohnRec : Record :=
  { name := "JOHN", phones := ["9876543210"], birthday := none }

def twoJohnBook : AddressBook :=
  ⟨[("John", titleJohnRec), ("JOHN", upperJohnRec)]⟩

/-! Helper lemmas about the validators. -/

theorem nameValidate_ok {j : Json} {s : String}
    (h : nameValidate j = .ok s) : pyStrIsAlpha s = true := by
  cases j with
  | str t =>
      by_cases ht : pyStrIsAlpha t
      · simp [nameValidate, ht] at h; simpa [← h] using ht
      · simp [nameValidate, ht] at h
  | null => simp [nameValidate] at h
  | arr l => simp [nameValidate] at h
  | obj kvs => simp [nameValidate] at h

theorem phoneValidate_ok {j : Json} {s : String}
    (h : phoneValidate j = .ok s) : j = .str s ∧ phoneStrValid s = true := by
  cases j with
  | str t =>
      by_cases ht : phoneStrValid t
      · simp [phoneValidate, ht] at h; simp [← h, ht]
      · simp [phoneValidate, ht] at h
  | null => simp [phoneValidate, pyLen] at h
  | arr l =>
      simp only [phoneValidate, pyLen] at h
      split at h <;> simp at h
  | obj kvs =>
      simp only [phoneValidate, pyLen] at h
      split at h <;> simp at h

theorem birthdayValidate_ok {j : Json} {s : String}
    (h : birthdayValidate j = .ok s) :
    j = .str s ∧ (strptimeDate s).isSome = true := by
  cases j with
  | str t =>
      simp only [birthdayValidate] at h
      split at h
      · cases h; simp_all
      · simp at h
  | null => simp [birthdayValidate] at h
  | arr l => simp [birthdayValidate] at h
  | obj kvs => simp [birthdayValidate] at h

/-- Claim C10: constructing a record with the empty string as the
birthday argument succeeds with no birthday set (show_birthday returns
the sentinel), even though validating the empty string as a birthday
fails; likewise an empty phones sequence yields zero phones. -/
theorem c10_empty_birthday_and_phones :
    Record.init (.str "John") (.arr []) (.str "")
        = .ok { name := "John", phones := [], birthday := none }
    ∧ (birthdayValidate (.str "")).isOk = false
    ∧ Record.show_birthday { name := "John", phones := [], birthday := none }
        = "No birthday set" :=
  ⟨rfl, rfl, rfl⟩

/-- Claim C1, the code evaluated at the failing input: saving the book
holding Record("John", ["1234567890"], "01/01/1990") and loading the
written storage does not reproduce the book; load raises AttributeError
because save serialized the name as the object `{"value": "John"}` and
load hands that object to name validation. -/
theorem c1_round_trip_crashes :
    AddressBook.load (Storage.contents johnBook.save)
      = .error (.attributeError "isalpha") := rfl

/-- Claim C7 counterexample: "1/1/1990" is not in strict DD/MM/YYYY
form, yet Birthday("1/1/1990").validate() succeeds, because strptime's
%d and %m accept unpadded one-digit fields. -/
theorem c7_counterexample :
    strictDDMMYYYY "1/1/1990" = false
    ∧ birthdayValidate (.str "1/1/1990") = .ok "1/1/1990" :=
  ⟨rfl, rfl⟩

theorem phoneStrValid_iff (s : String) :
    phoneStrValid s = true ↔
      s.data.length = 10 ∧ ∀ c ∈ s.data, pyCharIsDigit c = true := by
  simp only [phoneStrValid, pyStrIsDigit, String.length, Bool.and_eq_true,
    beq_iff_eq, List.all_eq_true, Bool.not_eq_true', List.isEmpty_eq_false]
  constructor
  · rintro ⟨h10, _, hall⟩
    exact ⟨h10, hall⟩
  · rintro ⟨h10, hall⟩
    refine ⟨h10, ?_, hall⟩
    intro hemp
    rw [hemp] at h10
    simp at h10

theorem pyCharIsDigit_of_decimal {c : Char} (h : specDecimalDigit c) :
    pyCharIsDigit c = true := by
  refine List.any_eq_true.mpr ⟨(48, 57), by decide, ?_⟩
  rw [decide_eq_true h.1, decide_eq_true h.2]
  rfl

/-- Claim C8 counterexample: the string of ten SUPERSCRIPT TWO
characters has length 10 and passes Python's `str.isdigit`, so Phone
validation succeeds on it, although it contains no decimal digit at
all — refuting "for every other string validation fails with a
ValidationError". -/
theorem c8_counterexample :
    phoneValidate (.str superTwoPhone) = .ok superTwoPhone
    ∧ ¬(superTwoPhone.data.length = 10
        ∧ ∀ c ∈ superTwoPhone.data, specDecimalDigit c) :=
  ⟨rfl, by decide⟩

/-- Claim C8 (amended): every string of exactly ten decimal digit
characters validates; validation succeeds exactly on the strings of ten
Python digit characters (`str.isdigit`, which also accepts non-ASCII
Unicode digits such as the counterexample's superscripts); every other
string fails with the phone ValueError. -/
theorem c8_phone_validate (s : String) :
    ((s.data.length = 10 ∧ ∀ c ∈ s.data, specDecimalDigit c) →
      phoneValidate (.str s) = .ok s)
    ∧ (phoneValidate (.str s) = .ok s ↔
      s.data.length = 10 ∧ ∀ c ∈ s.data, pyCharIsDigit c = true)
    ∧ (¬(s.data.length = 10 ∧ ∀ c ∈ s.data, pyCharIsDigit c = true) →
      phoneValidate (.str s) = .error (.valueError phoneMsg)) := by
  by_cases hv : phoneStrValid s = true
  · refine ⟨fun _ => by simp [phoneValidate, hv],
      ⟨fun _ => (phoneStrValid_iff s).mp hv, fun _ => by
        simp [phoneValidate, hv]⟩,
      fun hcon => absurd ((phoneStrValid_iff s).mp hv) hcon⟩
  · have hv' : phoneStrValid s = false := by simpa using hv
    refine ⟨fun h => ?_, ⟨fun h => ?_,
      fun h => absurd ((phoneStrValid_iff s).mpr h) hv⟩,
      fun _ => by simp [phoneValidate, hv']⟩
    · exact absurd ((phoneStrValid_iff s).mpr
        ⟨h.1, fun c hc => pyCharIsDigit_of_decimal (h.2 c hc)⟩) hv
    · simp [phoneValidate, hv'] at h

theorem c8_phone_validate_witness :
    phoneValidate (.str "123") = .error (.valueError phoneMsg) :=
  (c8_phone_validate "123").2.2 (by decide)

/-- Claim C3: edit_phone on a record holding only "1111111111" replaces
it by "2222222222"; whenever the old phone is present and the new phone
string is invalid, edit_phone raises the phone ValueError with the old
phone already removed (so a single-phone record is left with zero
phones, as the third conjunct shows concretely). -/
theorem c3_edit_phone :
    Record.edit_phone { name := "A", phones := ["1111111111"], birthday := none }
        "1111111111" (.str "2222222222")
      = ({ name := "A", phones := ["2222222222"], birthday := none }, none)
    ∧ (∀ (r : Record) (old nw : String), old ∈ r.phones →
        phoneStrValid nw = false →
        r.edit_phone old (.str nw)
          = ({ r with phones := r.phones.erase old },
             some (.valueError phoneMsg)))
    ∧ Record.edit_phone { name := "A", phones := ["1111111111"], birthday := none }
        "1111111111" (.str "123")
      = ({ name := "A", phones := [], birthday := none },
         some (.valueError phoneMsg)) := by
  refine ⟨by decide, ?_, by decide⟩
  intro r old nw hold hnw
  unfold Record.edit_phone Record.remove_phone
  rcases h : r.find_phone old with _ | ph
  · exfalso
    have := List.find?_eq_none.mp h old hold
    simp at this
  · simp [Record.add_phone, phoneValidate, hnw]

theorem c3_edit_phone_witness :
    Record.edit_phone { name := "B", phones := ["5555555555"], birthday := none }
        "5555555555" (.str "77")
      = ({ name := "B", phones := [], birthday := none },
         some (.valueError phoneMsg)) :=
  c3_edit_phone.2.1 { name := "B", phones := ["5555555555"], birthday := none }
    "5555555555" "77" (by decide) (by decide)

/-! Helper lemmas about the dict operations. -/

theorem find?_dictSet (l : List (String × Record)) (k : String) (v : Record) :
    (dictSet l k v).find? (fun kv => kv.1 == k) = some (k, v) := by
  induction l with
  | nil => simp [dictSet, List.find?]
  | cons a l ih =>
      by_cases hak : a.1 = k
      · have hany : (a :: l).any (fun kv => kv.1 == k) = true := by
          simp [List.any_cons, hak]
        simp only [dictSet, hany, if_true, List.map_cons]
        rw [if_pos (by simp [hak])]
        simp [List.find?]
      · by_cases hl : l.any (fun kv => kv.1 == k) = true
        · have hany : (a :: l).any (fun kv => kv.1 == k) = true := by
            simp [List.any_cons, hl]
          simp only [dictSet, hany, if_true, List.map_cons]
          rw [if_neg (by simp [hak]), List.find?_cons_of_neg _ (by simp [hak])]
          have hset : dictSet l k v
              = l.map (fun kv => if kv.1 == k then (k, v) else kv) := by
            simp [dictSet, hl]
          rw [← hset]
          exact ih
        · have hlf : l.any (fun kv => kv.1 == k) = false :=
            Bool.eq_false_iff.mpr hl
          have hany : (a :: l).any (fun kv => kv.1 == k) = false := by
            simp only [List.any_cons, Bool.or_eq_false_iff]
            exact ⟨by simp [hak], hlf⟩
          simp only [dictSet, hany, Bool.false_eq_true, if_false,
            List.cons_append]
          rw [List.find?_cons_of_neg _ (by simp [hak])]
          have hset : dictSet l k v = l ++ [(k, v)] := by
            simp [dictSet, hlf]
          rw [← hset]
          exact ih

theorem dictGet_eq_none {l : List (String × Record)} {k : String}
    (h : k ∉ l.map Prod.fst) : dictGet l k = none := by
  have hf : l.find? (fun kv => kv.1 == k) = none :=
    List.find?_eq_none.mpr fun x hx => by
      simp only [beq_iff_eq]
      intro he
      exact h (List.mem_map.mpr ⟨x, hx, he⟩)
  simp [dictGet, hf]

theorem pyJoin_infix (sep p : String) :
    ∀ l : List String, p ∈ l → p.data <:+: (pyJoin sep l).data
  | [x], h => by
      simp only [List.mem_singleton] at h
      subst h
      exact List.infix_rfl
  | x :: y :: xs, h => by
      rcases List.mem_cons.mp h with h1 | h2
      · subst h1
        refine ⟨[], (sep ++ pyJoin sep (y :: xs)).data, ?_⟩
        simp [pyJoin, String.data_append]
      · have ih := pyJoin_infix sep p (y :: xs) h2
        refine ih.trans ⟨(x ++ sep).data, [], ?_⟩
        simp [pyJoin, String.data_append]

/-- Claim C4: find looks up the title-cased transform of the input: a
just-added record stored under the title-cased form of the queried name
is found (and its rendered string contains each stored phone value), and
a name whose title-cased form is not a stored key is not found — even
when the name as typed is a stored key, which the witness shows. -/
theorem c4_find_title :
    (∀ (b : AddressBook) (r : Record) (n : String), r.name = pyTitle n →
        (b.add_record r).find n = some r)
    ∧ (∀ (b : AddressBook) (n : String),
        pyTitle n ∉ b.data.map Prod.fst → b.find n = none)
    ∧ (∀ (r : Record) (p : String), p ∈ r.phones →
        p.data <:+: r.render.data) := by
  refine ⟨?_, ?_, ?_⟩
  · intro b r n h
    show dictGet (dictSet b.data r.name r) (pyTitle n) = some r
    rw [← h]
    simp [dictGet, find?_dictSet]
  · intro b n h
    exact dictGet_eq_none h
  · intro r p hp
    have h1 : p.data <:+: (pyJoin ", " r.phones).data := pyJoin_infix _ p _ hp
    refine h1.trans ⟨("Contact name: " ++ r.name ++ ", phones: ").data,
      (", Birthday: " ++ r.show_birthday).data, ?_⟩
    simp [Record.render, String.data_append]

theorem c4_find_title_witness :
    AddressBook.find ⟨[("JOHN", upperJohnRec)]⟩ "JOHN" = none :=
  c4_find_title.2.1 ⟨[("JOHN", upperJohnRec)]⟩ "JOHN" (by decide)

/-- Claim C5 counterexample: in a book storing records under both "John"
and "JOHN", the key "JOHN" is present, delete("JOHN") succeeds, yet a
subsequent find("JOHN") returns the record stored under "John" (find
title-cases its input), not none — refuting "a subsequent find of that
name returns none" as stated. -/
theorem c5_counterexample :
    ("JOHN" ∈ twoJohnBook.data.map Prod.fst)
    ∧ (twoJohnBook.delete "JOHN").2 = none
    ∧ (twoJohnBook.delete "JOHN").1.find "JOHN" = some titleJohnRec := by
  decide

/-- Claim C5 (amended): delete on an absent name raises KeyError and
leaves the book unchanged; delete on a stored key succeeds, removes that
key, and keeps every entry under a different key; and a subsequent find
of the deleted name returns none provided the name's title-cased form is
not a key of the resulting book (in particular whenever the name is
itself title-cased). -/
theorem c5_delete :
    (∀ (b : AddressBook) (n : String), n ∉ b.data.map Prod.fst →
        b.delete n = (b, some (.keyError n)))
    ∧ (∀ (b : AddressBook) (n : String), n ∈ b.data.map Prod.fst →
        (b.delete n).2 = none
        ∧ n ∉ (b.delete n).1.data.map Prod.fst
        ∧ ∀ kv ∈ b.data, kv.1 ≠ n → kv ∈ (b.delete n).1.data)
    ∧ (∀ (b : AddressBook) (n : String),
        pyTitle n ∉ (b.delete n).1.data.map Prod.fst →
        (b.delete n).1.find n = none) := by
  have hany : ∀ (l : List (String × Record)) (n : String),
      l.any (fun kv => kv.1 == n) = true ↔ n ∈ l.map Prod.fst := by
    intro l n
    simp only [List.any_eq_true, beq_iff_eq, List.mem_map]
  refine ⟨?_, ?_, ?_⟩
  · intro b n h
    have : b.data.any (fun kv => kv.1 == n) = false := by
      rw [← Bool.not_eq_true]
      exact fun hc => h ((hany b.data n).mp hc)
    simp [AddressBook.delete, this]
  · intro b n h
    have ht := (hany b.data n).mpr h
    refine ⟨by simp [AddressBook.delete, ht], ?_, ?_⟩
    · simp only [AddressBook.delete, ht, if_true]
      intro hc
      rcases List.mem_map.mp hc with ⟨x, hx, he⟩
      have := (List.mem_filter.mp hx).2
      simp [he] at this
    · intro kv hkv hne
      simp only [AddressBook.delete, ht, if_true]
      exact List.mem_filter.mpr ⟨hkv, by simpa using hne⟩
  · intro b n h
    exact dictGet_eq_none h

theorem c5_delete_witness :
    AddressBook.delete ⟨[]⟩ "John" = (⟨[]⟩, some (.keyError "John")) :=
  c5_delete.1 ⟨[]⟩ "John" (by decide)

/-! Preservation of the record invariant. -/

theorem recInv_add_phone {r : Record} (h : recInv r) (p : Json) :
    recInv (r.add_phone p).1 := by
  unfold Record.add_phone
  rcases hv : phoneValidate p with e | s
  · exact h
  · obtain ⟨hn, hp, hb⟩ := h
    refine ⟨hn, ?_, hb⟩
    intro q hq
    rcases List.mem_append.mp hq with hq | hq
    · exact hp q hq
    · rw [List.mem_singleton.mp hq]
      exact (phoneValidate_ok hv).2

theorem recInv_remove_phone {r : Record} (h : recInv r) (p : String) :
    recInv (r.remove_phone p) := by
  unfold Record.remove_phone
  rcases hf : r.find_phone p with _ | q
  · exact h
  · obtain ⟨hn, hp, hb⟩ := h
    exact ⟨hn, fun x hx => hp x (List.mem_of_mem_erase hx), hb⟩

theorem recInv_add_birthday {r : Record} (h : recInv r) (b : Json) :
    recInv (r.add_birthday b).1 := by
  unfold Record.add_birthday
  rcases hv : birthdayValidate b with e | s
  · exact h
  · obtain ⟨hn, hp, _⟩ := h
    refine ⟨hn, hp, ?_⟩
    intro bd hbd
    injection hbd with h1
    rw [← h1]
    exact (birthdayValidate_ok hv).2

theorem recInv_addPhonesLoop {r : Record} (h : recInv r) :
    ∀ ps : List Json, recInv (addPhonesLoop r ps).1
  | [] => h
  | p :: ps => by
      unfold addPhonesLoop
      rcases hs : r.add_phone p with ⟨r1, e⟩
      have h1 : recInv r1 := by
        have hip := recInv_add_phone h p
        rw [hs] at hip
        exact hip
      cases e with
      | none => exact recInv_addPhonesLoop h1 ps
      | some e => exact h1

theorem recInv_init {name phones birthday : Json} {r : Record}
    (h : Record.init name phones birthday = .ok r) : recInv r := by
  unfold Record.init at h
  split at h
  · exact absurd h (by simp)
  · rename_i n hn
    have hbase : recInv { name := n, phones := [], birthday := none } :=
      ⟨nameValidate_ok hn, by simp, by simp⟩
    split at h
    · exact absurd h (by simp)
    · rename_i r1 hs1
      have hr1 : recInv r1 := by
        split at hs1
        · split at hs1
          · rename_i items hitems
            have := recInv_addPhonesLoop hbase items
            rw [hs1] at this
            exact this
          · exact absurd (congrArg Prod.snd hs1) (by simp)
        · rw [(Prod.mk.injEq _ _ _ _).mp hs1 |>.1] at hbase
          exact hbase
      split at h
      · exact absurd h (by simp)
      · rename_i r2 hs2
        have hr2 : recInv r2 := by
          split at hs2
          · have := recInv_add_birthday hr1 birthday
            rw [hs2] at this
            exact this
          · rw [(Prod.mk.injEq _ _ _ _).mp hs2 |>.1] at hr1
            exact hr1
        injection h with h1
        rw [← h1]
        exact hr2

/-- Claim C9: the record invariant — the name is valid, every stored
phone is a valid 10-digit phone string, and the birthday, if present, is
a valid date — holds after successful construction and is preserved by
add_phone, remove_phone, edit_phone and add_birthday, whether the
operation completes or fails (the post-state of a failed operation also
satisfies it; failed construction yields no record). -/
theorem c9_record_invariant :
    (∀ (name phones birthday : Json) (r : Record),
        Record.init name phones birthday = .ok r → recInv r)
    ∧ (∀ (r : Record) (p : Json), recInv r → recInv (r.add_phone p).1)
    ∧ (∀ (r : Record) (p : String), recInv r → recInv (r.remove_phone p))
    ∧ (∀ (r : Record) (old : String) (nw : Json), recInv r →
        recInv (r.edit_phone old nw).1)
    ∧ (∀ (r : Record) (b : Json), recInv r → recInv (r.add_birthday b).1) :=
  ⟨fun _ _ _ _ h => recInv_init h,
   fun _ p h => recInv_add_phone h p,
   fun _ p h => recInv_remove_phone h p,
   fun _ old nw h => recInv_add_phone (recInv_remove_phone h old) nw,
   fun _ b h => recInv_add_birthday h b⟩

theorem c9_record_invariant_witness : recInv johnRecord :=
  c9_record_invariant.1 (.str "John") (.arr [.str "1234567890"])
    (.str "01/01/1990") johnRecord rfl

/-! Error classification for reconstruction from well-formed storage. -/

theorem nameValidate_str_error {nm : String} {e : PyError}
    (h : nameValidate (.str nm) = .error e) : e = .valueError nameMsg := by
  have h' : (if pyStrIsAlpha nm = true then (.ok nm : Except PyError String)
      else .error (.valueError nameMsg)) = .error e := h
  split at h'
  · simp at h'
  · injection h' with h1
    exact h1.symm

theorem phoneValidate_str_error {s : String} {e : PyError}
    (h : phoneValidate (.str s) = .error e) : e = .valueError phoneMsg := by
  have h' : (if phoneStrValid s = true then (.ok s : Except PyError String)
      else .error (.valueError phoneMsg)) = .error e := h
  split at h'
  · simp at h'
  · injection h' with h1
    exact h1.symm

theorem birthdayValidate_str_error {s : String} {e : PyError}
    (h : birthdayValidate (.str s) = .error e) : e = .valueError birthdayMsg := by
  have h' : (match strptimeDate s with
      | some _ => (.ok s : Except PyError String)
      | none => .error (.valueError birthdayMsg)) = .error e := h
  split at h'
  · simp at h'
  · injection h' with h1
    exact h1.symm

theorem addPhonesLoop_str_error :
    ∀ (ps : List Json) (r r1 : Record) (e : PyError),
      (∀ p ∈ ps, ∃ s, p = .str s) →
      addPhonesLoop r ps = (r1, some e) → e = .valueError phoneMsg
  | [], r, r1, e, _, h => by simp [addPhonesLoop] at h
  | p :: ps, r, r1, e, hwf, h => by
      unfold addPhonesLoop at h
      rcases hs : r.add_phone p with ⟨ra, ea⟩
      rw [hs] at h
      cases ea with
      | none =>
          exact addPhonesLoop_str_error ps ra r1 e
            (fun q hq => hwf q (List.mem_cons_of_mem _ hq)) h
      | some ea =>
          obtain ⟨s, rfl⟩ := hwf p (List.mem_cons_self p ps)
          have hpv : phoneValidate (.str s) = .error ea := by
            unfold Record.add_phone at hs
            rcases hv : phoneValidate (.str s) with e2 | s2
            · rw [hv] at hs
              have h2 : some e2 = some ea := congrArg Prod.snd hs
              injection h2 with h3
              rw [h3]
            · rw [hv] at hs
              simp at hs
          have hea : some ea = some e := congrArg Prod.snd h
          injection hea with hea
          rw [← hea]
          exact phoneValidate_str_error hpv

theorem init_wf_error {nm : String} {ps : List Json} {bd : Json}
    (hps : ∀ p ∈ ps, ∃ s, p = .str s) (hbd : bd = .null ∨ ∃ s, bd = .str s)
    {e : PyError} (h : Record.init (.str nm) (.arr ps) bd = .error e) :
    ∃ msg, e = .valueError msg := by
  unfold Record.init at h
  split at h
  · rename_i e1 hn
    injection h with h1
    rw [← h1]
    exact ⟨nameMsg, nameValidate_str_error hn⟩
  · rename_i n hn
    split at h
    · rename_i pr e1 hs1
      injection h with h1
      rw [← h1]
      split at hs1
      · split at hs1
        · rename_i items hitems
          injection hitems with h2
          rw [← h2] at hs1
          exact ⟨phoneMsg, addPhonesLoop_str_error ps _ _ _ hps hs1⟩
        · rename_i e2 hiter
          simp [jsonIter] at hiter
      · simp at hs1
    · rename_i r1 hs1
      split at h
      · rename_i pr e1 hs2
        injection h with h1
        rw [← h1]
        split at hs2
        · rename_i htr
          rcases hbd with rfl | ⟨s, rfl⟩
          · simp [jsonTruthy] at htr
          · unfold Record.add_birthday at hs2
            rcases hv : birthdayValidate (.str s) with e2 | s2
            · rw [hv] at hs2
              have h2 : some e2 = some e1 := congrArg Prod.snd hs2
              injection h2 with h3
              rw [← h3]
              exact ⟨birthdayMsg, birthdayValidate_str_error hv⟩
            · rw [hv] at hs2
              simp at hs2
        · simp at hs2
      · simp at h

theorem loadEntry_wf_error {v : Json} (hwf : wellFormedEntry v) {e : PyError}
    (h : loadEntry v = .error e) : ∃ msg, e = .valueError msg := by
  obtain ⟨nm, ps, bd, h1, h2, h3, h4, h5⟩ := hwf
  unfold loadEntry at h
  rw [h1, h2, h4] at h
  exact init_wf_error h3 h5 h

theorem loadItems_wf_error :
    ∀ (kvs : List (String × Json)), (∀ kv ∈ kvs, wellFormedEntry kv.2) →
      (∃ kv ∈ kvs, (loadEntry kv.2).isOk = false) →
      ∀ acc, ∃ msg, loadItems acc kvs = .error (.valueError msg)
  | [], _, hex, _ => absurd hex (by simp)
  | (k, v) :: rest, hwf, hex, acc => by
      unfold loadItems
      rcases he : loadEntry v with e | r
      · obtain ⟨msg, hmsg⟩ :=
          loadEntry_wf_error (hwf (k, v) (List.mem_cons_self _ _)) he
        exact ⟨msg, by rw [hmsg]⟩
      · have hex' : ∃ kv ∈ rest, (loadEntry kv.2).isOk = false := by
          rcases hex with ⟨kv, hkv, hnok⟩
          rcases List.mem_cons.mp hkv with rfl | hm
          · rw [he] at hnok
            simp [Except.isOk, Except.toBool] at hnok
          · exact ⟨kv, hm, hnok⟩
        exact loadItems_wf_error rest
          (fun kv hkv => hwf kv (List.mem_cons_of_mem _ hkv)) hex'
          (dictSet acc k r)

/-- Claim C6: load yields an empty book when the storage file is absent
or its contents are not well-formed JSON; but on a well-formed object
whose entries have the persisted schema (string name, string phones,
string-or-null birthday), if some entry fails reconstruction then the
resulting ValidationError propagates out of load instead of being
swallowed into an empty book. -/
theorem c6_load_failure_handling :
    (AddressBook.load .absent = .ok ⟨[]⟩
      ∧ AddressBook.load .malformed = .ok ⟨[]⟩)
    ∧ ∀ kvs : List (String × Json),
        (∀ kv ∈ kvs, wellFormedEntry kv.2) →
        (∃ kv ∈ kvs, (loadEntry kv.2).isOk = false) →
        ∃ msg, AddressBook.load (.contents (.obj kvs))
          = .error (.valueError msg) := by
  refine ⟨⟨rfl, rfl⟩, ?_⟩
  intro kvs hwf hex
  obtain ⟨msg, hmsg⟩ := loadItems_wf_error kvs hwf hex []
  exact ⟨msg, by simp [AddressBook.load, hmsg]⟩

theorem c6_load_failure_handling_witness :
    ∃ msg, AddressBook.load (.contents (.obj [("Bad", badEntry)]))
      = .error (.valueError msg) :=
  c6_load_failure_handling.2 [("Bad", badEntry)]
    (fun kv hkv => by
      rw [List.mem_singleton.mp hkv]
      exact ⟨"Bad123", [], .null, rfl, rfl, by simp, rfl, Or.inl rfl⟩)
    ⟨("Bad", badEntry), List.mem_singleton.mpr rfl, by decide⟩

/-! The weekly-birthday query. -/

theorem gbpwAux_spec (today : Int) :
    ∀ l : List (String × Record), (∀ kv ∈ l, recBirthdayOk kv.2 = true) →
      ∃ L, gbpwAux today l = .ok L
        ∧ ∀ nm bd, (nm, bd) ∈ L ↔
            ∃ kv ∈ l, kv.2.name = nm ∧ kv.2.birthday = some bd
              ∧ inWindow today bd
  | [], _ => ⟨[], rfl, by simp⟩
  | (k, r) :: rest, h => by
      obtain ⟨L, hL, hiff⟩ := gbpwAux_spec today rest
        (fun kv hkv => h kv (List.mem_cons_of_mem _ hkv))
      unfold gbpwAux
      rcases hb : r.birthday with _ | b
      · refine ⟨L, hL, fun nm bd => ?_⟩
        rw [hiff nm bd]
        constructor
        · rintro ⟨kv, hkv, hp⟩
          exact ⟨kv, List.mem_cons_of_mem _ hkv, hp⟩
        · rintro ⟨kv, hkv, hp⟩
          rcases List.mem_cons.mp hkv with rfl | hm
          · rw [hb] at hp
            simp at hp
          · exact ⟨kv, hm, hp⟩
      · have hok : (strptimeDate b).isSome = true := by
          have hh := h (k, r) (List.mem_cons_self _ _)
          simpa [recBirthdayOk, hb] using hh
        rcases hd : strptimeDate b with _ | ⟨d, m, y⟩
        · rw [hd] at hok
          simp at hok
        · by_cases hw : today ≤ midnightTs d m y
              ∧ midnightTs d m y ≤ today + 7 * 86400
          · have hc : (decide (today ≤ midnightTs d m y)
                && decide (midnightTs d m y ≤ today + 7 * 86400)) = true := by
              rw [decide_eq_true hw.1, decide_eq_true hw.2]
              rfl
            refine ⟨(r.name, b) :: L, ?_, fun nm bd => ?_⟩
            · simp only [hb, hd, hL, hc]
              rfl
            constructor
            · intro hmem
              rcases List.mem_cons.mp hmem with he | hm
              · have h1 : nm = r.name := congrArg Prod.fst he
                have h2 : bd = b := congrArg Prod.snd he
                exact ⟨(k, r), List.mem_cons_self _ _, h1.symm,
                  by rw [hb, h2], h2 ▸ ⟨d, m, y, hd, hw.1, hw.2⟩⟩
              · obtain ⟨kv, hkv, hp⟩ := (hiff nm bd).mp hm
                exact ⟨kv, List.mem_cons_of_mem _ hkv, hp⟩
            · rintro ⟨kv, hkv, hnm, hbd, hwin⟩
              rcases List.mem_cons.mp hkv with rfl | hm
              · rw [hb] at hbd
                injection hbd with hbd
                rw [← hnm, hbd]
                exact List.mem_cons_self _ _
              · exact List.mem_cons_of_mem _
                  ((hiff nm bd).mpr ⟨kv, hm, hnm, hbd, hwin⟩)
          · have hc : (decide (today ≤ midnightTs d m y)
                && decide (midnightTs d m y ≤ today + 7 * 86400)) = false := by
              rcases not_and_or.mp hw with hn | hn
              · rw [decide_eq_false hn, Bool.false_and]
              · rw [decide_eq_false hn, Bool.and_false]
            refine ⟨L, ?_, fun nm bd => ?_⟩
            · simp only [hb, hd, hL, hc]
              rfl
            rw [hiff nm bd]
            constructor
            · rintro ⟨kv, hkv, hp⟩
              exact ⟨kv, List.mem_cons_of_mem _ hkv, hp⟩
            · rintro ⟨kv, hkv, hnm, hbd, hwin⟩
              rcases List.mem_cons.mp hkv with rfl | hm
              · exfalso
                rw [hb] at hbd
                injection hbd with hbd
                obtain ⟨d2, m2, y2, hd2, hw1, hw2⟩ := hwin
                rw [← hbd, hd] at hd2
                injection hd2 with hd2
                simp only [Prod.mk.injEq] at hd2
                obtain ⟨rfl, rfl, rfl⟩ := hd2
                exact hw ⟨hw1, hw2⟩
              · exact ⟨kv, hm, hnm, hbd, hwin⟩

/-- Claim C2: for every book whose stored birthdays parse, and every
timestamp `today`, get_birthdays_per_week returns exactly the
(name, birthday) pairs of records with a birthday whose stored date —
parsed literally, with its stored year, never re-anchored — falls (as
its midnight instant) within `[today, today + 7 days]` inclusive; on an
empty book it returns the empty list. -/
theorem c2_birthdays_per_week (b : AddressBook) (today : Int)
    (h : ∀ kv ∈ b.data, recBirthdayOk kv.2 = true) :
    ∃ L, b.get_birthdays_per_week today = .ok L
      ∧ (∀ nm bd, (nm, bd) ∈ L ↔
          ∃ kv ∈ b.data, kv.2.name = nm ∧ kv.2.birthday = some bd
            ∧ inWindow today bd)
      ∧ (b.data = [] → L = []) := by
  obtain ⟨L, hL, hiff⟩ := gbpwAux_spec today b.data h
  refine ⟨L, hL, hiff, ?_⟩
  intro hnil
  rcases hL2 : L with _ | ⟨⟨nm, bd⟩, L2⟩
  · rfl
  · exfalso
    have hm := (hiff nm bd).mp (by rw [hL2]; exact List.mem_cons_self _ _)
    rw [hnil] at hm
    simp at hm

theorem c2_birthdays_per_week_witness :
    ∃ L, johnBook.get_birthdays_per_week 0 = .ok L
      ∧ (∀ nm bd, (nm, bd) ∈ L ↔
          ∃ kv ∈ johnBook.data, kv.2.name = nm ∧ kv.2.birthday = some bd
            ∧ inWindow 0 bd)
      ∧ (johnBook.data = [] → L = []) :=
  c2_birthdays_per_week johnBook 0 (by decide)

/-! Calendar characterization of birthday validation. -/

theorem isLeapYear_iff (y : Nat) :
    isLeapYear y = true ↔ (y % 4 = 0 ∧ (y % 100 ≠ 0 ∨ y % 400 = 0)) := by
  unfold isLeapYear
  simp [Bool.and_eq_true, Bool.or_eq_true, beq_iff_eq, bne_iff_ne]

theorem daysInMonth_two (y : Nat) :
    daysInMonth y 2 = if isLeapYear y = true then 29 else 28 := by
  simp [daysInMonth]

theorem dateOk_iff_specRealDate (d m y : Nat) :
    dateOk d m y = true ↔ specRealDate d m y := by
  unfold dateOk specRealDate
  simp only [Bool.and_eq_true, decide_eq_true_eq, and_assoc]
  constructor
  · rintro ⟨hy1, hy2, hm1, hm2, hd1, hd2⟩
    refine ⟨hy1, hy2, hd1, ?_⟩
    interval_cases m
    · exact Or.inl ⟨by decide, by simpa [daysInMonth] using hd2⟩
    · refine Or.inr (Or.inr ⟨rfl, ?_⟩)
      rw [daysInMonth_two] at hd2
      by_cases hl : isLeapYear y = true
      · rw [if_pos ((isLeapYear_iff y).mp hl)]
        rwa [if_pos hl] at hd2
      · rw [if_neg fun hc => hl ((isLeapYear_iff y).mpr hc)]
        rwa [if_neg hl] at hd2
    · exact Or.inl ⟨by decide, by simpa [daysInMonth] using hd2⟩
    · exact Or.inr (Or.inl ⟨by decide, by simpa [daysInMonth] using hd2⟩)
    · exact Or.inl ⟨by decide, by simpa [daysInMonth] using hd2⟩
    · exact Or.inr (Or.inl ⟨by decide, by simpa [daysInMonth] using hd2⟩)
    · exact Or.inl ⟨by decide, by simpa [daysInMonth] using hd2⟩
    · exact Or.inl ⟨by decide, by simpa [daysInMonth] using hd2⟩
    · exact Or.inr (Or.inl ⟨by decide, by simpa [daysInMonth] using hd2⟩)
    · exact Or.inl ⟨by decide, by simpa [daysInMonth] using hd2⟩
    · exact Or.inr (Or.inl ⟨by decide, by simpa [daysInMonth] using hd2⟩)
    · exact Or.inl ⟨by decide, by simpa [daysInMonth] using hd2⟩
  · rintro ⟨hy1, hy2, hd1, hcase⟩
    rcases hcase with ⟨hm, hd2⟩ | ⟨hm, hd2⟩ | ⟨rfl, hd2⟩
    · have hm' : m = 1 ∨ m = 3 ∨ m = 5 ∨ m = 7 ∨ m = 8 ∨ m = 10 ∨ m = 12 := by
        simpa using hm
      rcases hm' with rfl | rfl | rfl | rfl | rfl | rfl | rfl <;>
        exact ⟨hy1, hy2, by norm_num, by norm_num, hd1,
          by simpa [daysInMonth] using hd2⟩
    · have hm' : m = 4 ∨ m = 6 ∨ m = 9 ∨ m = 11 := by simpa using hm
      rcases hm' with rfl | rfl | rfl | rfl <;>
        exact ⟨hy1, hy2, by norm_num, by norm_num, hd1,
          by simpa [daysInMonth] using hd2⟩
    · refine ⟨hy1, hy2, by norm_num, by norm_num, hd1, ?_⟩
      rw [daysInMonth_two]
      by_cases hl : isLeapYear y = true
      · rw [if_pos hl]
        rwa [if_pos ((isLeapYear_iff y).mp hl)] at hd2
      · rw [if_neg hl]
        rwa [if_neg fun hc => hl ((isLeapYear_iff y).mpr hc)] at hd2

/-- Claim C7 (amended): Birthday validation succeeds exactly when the
string parses in day/month/4-digit-year order — day and month written
with one or two digits (the day alternatively space-padded), the year
with exactly four digits — to a real calendar date in years 1..9999; in
particular 29/02/2024 validates (leap year), while 29/02/2023 and
31/04/2020 fail.  Zero-padding of day and month is not required (see the
counterexample). -/
theorem c7_birthday_validate :
    birthdayValidate (.str "29/02/2024") = .ok "29/02/2024"
    ∧ (birthdayValidate (.str "29/02/2023")).isOk = false
    ∧ (birthdayValidate (.str "31/04/2020")).isOk = false
    ∧ ∀ s : String, (birthdayValidate (.str s)).isOk = true ↔
        ∃ d m y, strptimeDMY s = some (d, m, y) ∧ specRealDate d m y := by
  refine ⟨rfl, rfl, rfl, fun s => ?_⟩
  constructor
  · intro h
    rcases hd : strptimeDate s with _ | ⟨d, m, y⟩
    · have hbv : birthdayValidate (.str s)
          = .error (.valueError birthdayMsg) := by
        simp [birthdayValidate, hd]
      rw [hbv] at h
      simp [Except.isOk, Except.toBool] at h
    · unfold strptimeDate at hd
      rcases hm : strptimeDMY s with _ | ⟨d2, m2, y2⟩
      · rw [hm] at hd
        simp at hd
      · rw [hm] at hd
        by_cases hok : dateOk d2 m2 y2 = true
        · exact ⟨d2, m2, y2, rfl, (dateOk_iff_specRealDate d2 m2 y2).mp hok⟩
        · replace hd : (if dateOk d2 m2 y2 = true then some (d2, m2, y2)
              else none) = some (d, m, y) := hd
          rw [if_neg hok] at hd
          simp at hd
  · rintro ⟨d, m, y, hm, hspec⟩
    have hok : dateOk d m y = true := (dateOk_iff_specRealDate d m y).mpr hspec
    have hsd : strptimeDate s = some (d, m, y) := by
      simp [strptimeDate, hm, hok]
    simp [birthdayValidate, hsd, Except.isOk, Except.toBool]

theorem c7_birthday_validate_witness :
    (birthdayValidate (.str "15/06/2021")).isOk = true :=
  (c7_birthday_validate.2.2.2 "15/06/2021").mpr ⟨15, 6, 2021, rfl, by decide⟩

end Bot4
